import Mathlib

/-!
Verification of the nuwa-build build backend (configuration resolution,
compiler-command construction, diagnostic parsing and formatting, stub
extraction, and archive assembly from manifest rules).

Each Python function of the source is shallowly embedded as an executable
Lean definition.  Filesystem observations (which paths exist, the lines of
a file) are passed explicitly as function arguments; everything else is
translated line by line from the source.
-/

namespace NuwaBuild

/-! ## Python string primitives

Character-level models of the Python `str` operations used by the source
(`strip`, `rstrip`, `split`, `splitlines`).  Whitespace is the ASCII
whitespace set recognised by Python's `str.strip` / `\s`. -/

def isPySpace (c : Char) : Bool :=
  c = ' ' || c = '\t' || c = '\n' || c = '\r' || c = '\x0b' || c = '\x0c'

/-- Python `str.strip()` on a list of characters. -/
def stripChars (cs : List Char) : List Char :=
  ((cs.dropWhile isPySpace).reverse.dropWhile isPySpace).reverse

/-- Python `str.rstrip()` on a list of characters. -/
def rstripChars (cs : List Char) : List Char :=
  (cs.reverse.dropWhile isPySpace).reverse

/-- Python `str.strip()` on a `String`. -/
def pyStrip (s : String) : String :=
  String.mk (stripChars s.data)

/-- Python `str.rstrip()` on a `String`. -/
def pyRstrip (s : String) : String :=
  String.mk (rstripChars s.data)

/-- Python `str.split(sep)` for a one-character separator: splits at every
occurrence, keeping empty fields (Python semantics of `split("\n")`). -/
def splitOnChar (sep : Char) : List Char → List (List Char)
  | [] => [[]]
  | c :: rest =>
    if c = sep then
      [] :: splitOnChar sep rest
    else
      match splitOnChar sep rest with
      | [] => [[c]]
      | h :: t => (c :: h) :: t

/-- Python `str.split()` with no argument: split on whitespace runs, dropping
empty fields.  Fueled recursion; the fuel is always sufficient because each
step consumes at least one character. -/
def pyWordsAux : Nat → List Char → List (List Char)
  | 0, _ => []
  | fuel + 1, cs =>
    let cs' := cs.dropWhile isPySpace
    match cs' with
    | [] => []
    | _ =>
      let w := cs'.takeWhile (fun c => !isPySpace c)
      w :: pyWordsAux fuel (cs'.dropWhile (fun c => !isPySpace c))

def pyWords (s : String) : List String :=
  (pyWordsAux (s.data.length + 1) s.data).map String.mk

/-- Python `str.splitlines()` restricted to the line separators `\n`, `\r\n`,
`\r`, `\x0b`, `\x0c` (the separators that can occur in compiler output). -/
def isPyNewline (c : Char) : Bool :=
  c = '\n' || c = '\r' || c = '\x0b' || c = '\x0c'

def pySplitlinesAux : List Char → List Char → List (List Char)
  | [], acc => [acc.reverse]
  | '\r' :: '\n' :: t, acc =>
    acc.reverse :: (match t with | [] => [] | _ => pySplitlinesAux t [])
  | c :: t, acc =>
    if isPyNewline c then
      acc.reverse :: (match t with | [] => [] | _ => pySplitlinesAux t [])
    else
      pySplitlinesAux t (c :: acc)

def pySplitlines (s : String) : List (List Char) :=
  match s.data with
  | [] => []
  | cs => pySplitlinesAux cs []

/-! ## `fnmatch.fnmatch`

Shell-style wildcard matching as used by `pathlib.Path.glob` /
`fnmatch.fnmatch` on a POSIX system (case-sensitive): `*` matches any
sequence, `?` any single character, `[seq]` a character class with `!`
negation and `a-b` ranges (an unterminated `[` is a literal).  Fueled
recursion: each recursive call consumes at least one character of the
pattern or of the name, so `pattern.length + name.length + 1` fuel always
suffices. -/

/-- Membership of a character in a `[...]` class body (`a-b` ranges,
other characters literal; a trailing `-` is literal). -/
def inClass (c : Char) : List Char → Bool
  | a :: '-' :: b :: rest => (a.val ≤ c.val && c.val ≤ b.val) || inClass c rest
  | a :: rest => (c = a) || inClass c rest
  | [] => false

/-- Scan for the closing `]` of a character class, returning the class
body and the remainder of the pattern. -/
def findCloseBracket : List Char → List Char → Option (List Char × List Char)
  | [], _ => Option.none
  | ']' :: rest, acc => Option.some (acc.reverse, rest)
  | c :: rest, acc => findCloseBracket rest (c :: acc)

def fnmatchAux : Nat → List Char → List Char → Bool
  | 0, _, _ => false
  | _ + 1, [], name => name.isEmpty
  | fuel + 1, '*' :: ps, name =>
    fnmatchAux fuel ps name ||
      (match name with
       | [] => false
       | _ :: nt => fnmatchAux fuel ('*' :: ps) nt)
  | fuel + 1, '?' :: ps, name =>
    match name with
    | [] => false
    | _ :: nt => fnmatchAux fuel ps nt
  | fuel + 1, '[' :: ps, name =>
    let (neg, ps1) := match ps with
      | '!' :: t => (true, t)
      | _ => (false, ps)
    let (litFirst, ps2) := match ps1 with
      | ']' :: t => ([']'], t)
      | _ => (([] : List Char), ps1)
    match findCloseBracket ps2 [] with
    | Option.none =>
      -- no closing bracket: `[` is a literal character
      (match name with
       | [] => false
       | n :: nt => (n = '[') && fnmatchAux fuel ps nt)
    | Option.some (body, rest) =>
      (match name with
       | [] => false
       | n :: nt =>
         (if neg then !(inClass n (litFirst ++ body)) else inClass n (litFirst ++ body))
           && fnmatchAux fuel rest nt)
  | fuel + 1, p :: ps, name =>
    match name with
    | [] => false
    | n :: nt => (n = p) && fnmatchAux fuel ps nt

/-- Python `fnmatch.fnmatch(name, pat)` (case-sensitive POSIX behaviour). -/
def fnmatch (name : String) (pat : String) : Bool :=
  fnmatchAux (pat.data.length + name.data.length + 1) pat.data name.data

/-! ## `backend._build_nim_command`

Translation of `backend.py` lines 83-135.  Paths are strings; `/` joins
path components; the filesystem's `Path.exists` observations are passed in
as the predicate `ex`.  `NIM_APP_LIB_FLAG = "--app:lib"` is taken from
`constants.py`. -/

def NIM_APP_LIB_FLAG : String := "--app:lib"

def buildNimCommand (entryPoint outputPath : String) (buildType : String)
    (nimFlags : List String) (nimDir : String) (nimblePath : Option String)
    (ex : String → Bool) : List String :=
  let cmd := ["nim", "c", NIM_APP_LIB_FLAG, "--out:" ++ outputPath]
  -- Add module search path (so imports work between Nim files)
  let cmd := cmd ++ ["--path:" ++ nimDir]
  -- Add local nimble path for isolated dependencies:
  -- check pkgs2 first (newer nimble), then fall back to pkgs
  let cmd := cmd ++
    (match nimblePath with
     | Option.none => []
     | Option.some np =>
       let pkgsPath := np ++ "/pkgs2"
       let pkgsPath := if !(ex pkgsPath) then np ++ "/pkgs" else pkgsPath
       if ex pkgsPath then ["--nimblePath:" ++ pkgsPath] else [])
  -- Add release flag
  let cmd := cmd ++ (if buildType = "release" then ["-d:release"] else [])
  -- Add user flags
  let cmd := cmd ++ (if nimFlags ≠ [] then nimFlags else [])
  -- Add entry point
  cmd ++ [entryPoint]

/-! ## `config.parse_nuwa_config`: the flag list

Translation of the `nim_flags` computation of `config.py`: the base flags
from the tool section (line 108), the profile extension (line 125), and
the platform-conditional static-link injection (lines 129-135).
`sys.platform` is passed explicitly. -/

def nuwaConfigNimFlags (platform : String) (baseFlags profileFlags : List String)
    (windowsStaticLinking : Bool) : List String :=
  let flags := baseFlags ++ profileFlags
  if platform = "win32" && windowsStaticLinking
      && !(flags.contains "--passL:-static") && !(flags.contains "--cc:vcc") then
    flags ++ ["--passL:-static"]
  else
    flags

/-! ## `errors.parse_nim_error`

Translation of `errors.py` lines 35-62.  The regular expression
`^(.+)\((\d+)\s*,\s*(\d+)\s*\)\s+(Error|Warning|Hint):\s+(.+)$` is embedded
with Python `re` semantics: the leading `(.+)` is greedy (the rightmost
`(` admitting a full match of the remainder wins), `(\d+)` takes a maximal
digit run, `\s*`/`\s+` take maximal whitespace with the one real
backtracking point at the final `\s+(.+)$` (when everything after the `:`
is whitespace, one character is given back to the message group). -/

structure NimError where
  file : String
  line : Nat
  col : Nat
  level : String
  message : String
  deriving DecidableEq, Repr

/-- Value of a maximal digit run (`int(match.group(n))`). -/
def digitsToNat (cs : List Char) : Nat :=
  cs.foldl (fun n c => n * 10 + (c.toNat - '0'.toNat)) 0

/-- The `(Error|Warning|Hint)` alternation. -/
def levelOf (cs : List Char) : Option (String × List Char) :=
  if cs.take 5 = "Error".data then Option.some ("Error", cs.drop 5)
  else if cs.take 7 = "Warning".data then Option.some ("Warning", cs.drop 7)
  else if cs.take 4 = "Hint".data then Option.some ("Hint", cs.drop 4)
  else Option.none

/-- The final `\s+(.+)$`: at least one whitespace character, then a
nonempty message group (with the one-character backtrack when the whole
tail is whitespace); the caller strips the message
(`match.group(5).strip()`). -/
def msgMatch (t : List Char) : Option String :=
  let w := t.takeWhile isPySpace
  if w = [] then Option.none
  else if w.length = t.length then
    if 2 ≤ t.length then Option.some (String.mk (stripChars (t.drop (t.length - 1))))
    else Option.none
  else Option.some (String.mk (stripChars (t.drop w.length)))

/-- Match `(\d+)\s*,\s*(\d+)\s*\)\s+(Error|Warning|Hint):\s+(.+)$` against
the characters following a `(`. -/
def matchAfterParen (cs : List Char) : Option (Nat × Nat × String × String) :=
  let d1 := cs.takeWhile Char.isDigit
  let r1 := cs.dropWhile Char.isDigit
  if d1 = [] then Option.none else
  match r1.dropWhile isPySpace with
  | ',' :: r3 =>
    let r4 := r3.dropWhile isPySpace
    let d2 := r4.takeWhile Char.isDigit
    let r5 := r4.dropWhile Char.isDigit
    if d2 = [] then Option.none else
    match r5.dropWhile isPySpace with
    | ')' :: r7 =>
      if r7.takeWhile isPySpace = [] then Option.none else
      match levelOf (r7.dropWhile isPySpace) with
      | Option.some (lvl, r9) =>
        match r9 with
        | ':' :: r10 =>
          match msgMatch r10 with
          | Option.some msg => Option.some (digitsToNat d1, digitsToNat d2, lvl, msg)
          | Option.none => Option.none
        | _ => Option.none
      | Option.none => Option.none
    | _ => Option.none
  | _ => Option.none

/-- One call of `error_pattern.match(line.strip())` for a raw line: strip the line,
then find the rightmost `(` (greedy `(.+)`) whose remainder matches. -/
def parseLine (raw : List Char) : Option NimError :=
  let s := stripChars raw
  (List.range s.length).reverse.findSome? fun i =>
    if i = 0 then Option.none
    else match s.get? i with
      | Option.some '(' =>
        (matchAfterParen (s.drop (i + 1))).map fun r =>
          { file := String.mk (s.take i), line := r.1, col := r.2.1,
            level := r.2.2.1, message := r.2.2.2 }
      | _ => Option.none

/-- The value of `stderr.strip().split("\n")`, the line list scanned by
`parse_nim_error`. -/
def pyLines (stderr : String) : List (List Char) :=
  splitOnChar '\n' (stripChars stderr.data)

/-- Translation of `errors.parse_nim_error`: first matching line wins. -/
def parseNimError (stderr : String) : Option NimError :=
  (pyLines stderr).findSome? parseLine

/-! ## `errors.get_error_context` and `errors.format_compilation_error`

Translation of `errors.py` lines 65-143.  The filesystem is the function
`fs : String → Option (List String)`: `fs path = some lines` means the
file is readable with those `readlines()` results, `fs path = none` means
`open` (or decoding) raises, which the source catches, returning
`([], 0)`. -/

/-- Python list slicing `l[a:b]` (step 1): negative indices count from the
end, and both bounds are clamped to the list. -/
def pySlice {α : Type} (l : List α) (a b : Int) : List α :=
  let n : Int := l.length
  let s := if a < 0 then max 0 (n + a) else min a n
  let e := if b < 0 then max 0 (n + b) else min b n
  (l.take e.toNat).drop s.toNat

/-- Formatting `f"{line_no:4d}"`: decimal, right-aligned in a field of width 4. -/
def fmtWidth4 (n : Int) : String :=
  let s := toString n
  if s.length < 4 then String.mk (List.replicate (4 - s.length) ' ') ++ s else s

def getErrorContext (fs : String → Option (List String)) (filePath : String)
    (lineNum : Int) (contextLines : Int := 2) : List String × Int :=
  match fs filePath with
  | Option.none => ([], 0)
  | Option.some lines =>
    let start : Int := max 0 (lineNum - contextLines - 1)
    let stop : Int := min (lines.length : Int) (lineNum + contextLines)
    let context := pySlice lines start stop
    let errorIndex : Int := lineNum - start - 1
    let numbered := context.enum.map fun p =>
      fmtWidth4 (start + p.1 + 1) ++
        (if (p.1 : Int) = errorIndex then " > " else "   ") ++ pyRstrip p.2
    (numbered, errorIndex)

/-- Python `Path.is_absolute()` on POSIX. -/
def isAbsolutePath (p : String) : Bool :=
  p.data.head? = Option.some '/'

/-- The file-path resolution of `format_compilation_error` lines 117-119:
`working_dir / file` when a working directory is given and the reported
file is relative. -/
def resolveErrorPath (workingDir : Option String) (file : String) : String :=
  match workingDir with
  | Option.none => file
  | Option.some wd => if isAbsolutePath file then file else wd ++ "/" ++ file

def formatCompilationError (fs : String → Option (List String)) (stderr : String)
    (workingDir : Option String) : String :=
  match parseNimError stderr with
  | Option.none =>
    -- Fallback: return raw output if we can't parse it
    stderr
  | Option.some err =>
    let filePath := resolveErrorPath workingDir err.file
    let symbol := if err.level = "Error" then "❌" else "⚠️"
    let header := ["\n" ++ symbol ++ " " ++ err.level ++ " in " ++ filePath
                     ++ ":" ++ toString err.line,
                   "",
                   "   " ++ err.message,
                   ""]
    let contextLines := (getErrorContext fs filePath (err.line : Int) 2).1
    let body := if contextLines ≠ [] then contextLines ++ [""] else []
    String.intercalate "\n" (header ++ body ++ ["--- Full compiler output ---", stderr])

/-! ## `pep517_hooks._add_compiled_extension`

Translation of `pep517_hooks.py` lines 345-377.  The enclosing directory
of the compiled artifact is passed as the list of the names of its entries
(`so_file.parent.glob("*.dll")` scans exactly these); the function returns
the list of archive names written to the wheel, in write order. -/

/-- Python `pathlib.PurePath.suffix`: the extension of the final component
(`""` when the name has no dot, starts with its only dot, or ends in a
dot). -/
def pathSuffix (name : String) : String :=
  let cs := name.data
  let revIdx := cs.reverse.findIdx (· = '.')
  if revIdx = cs.length then ""
  else
    let i := cs.length - 1 - revIdx
    if 0 < i ∧ i < cs.length - 1 then String.mk (cs.drop i) else ""

def addCompiledExtension (parentEntries : List String) (soFileName : String)
    (nameNormalized libName ext : String) : List String :=
  let arcname := nameNormalized ++ "/" ++ libName ++ ext
  let written := [arcname]
  -- On Windows, also bundle any DLL files generated alongside the .pyd
  if pathSuffix soFileName = ".pyd" then
    let dllsFound := parentEntries.filter (fun f => fnmatch f "*.dll")
    written ++ dllsFound.map (fun dll => nameNormalized ++ "/" ++ dll)
  else
    written

/-! ## `pep517_hooks._parse_manifest` and `_add_files_from_manifest`

Translation of `pep517_hooks.py` lines 117-262.  The package directory is
modelled as the list of its files, each a nonempty list of path components
relative to the package directory; its (non-empty) subdirectories are the
proper prefixes of those paths.  `Path.glob` on a slash-separated pattern
matches component-wise with `fnmatch` (`**` matching any run of
components); `rglob(p)` for a slash-free `p` matches any descendant whose
final component matches `p`. -/

structure ManifestCommands where
  includePats : List String
  excludePats : List String
  recursiveIncludePats : List String
  recursiveExcludePats : List String
  globalIncludePats : List String
  globalExcludePats : List String
  deriving Repr

def emptyCommands : ManifestCommands :=
  ⟨[], [], [], [], [], []⟩

/-- One line of `_parse_manifest`'s loop body. -/
def parseManifestLine (cmds : ManifestCommands) (rawLine : String) : ManifestCommands :=
  let l := pyStrip rawLine
  -- Skip empty lines and comments
  if l = "" || l.data.head? = Option.some '#' then cmds
  else
    let parts := pyWords l
    if parts.length < 2 then cmds
    else
      match parts with
      | [] => cmds
      | cmd :: rest =>
        if cmd = "include" then { cmds with includePats := cmds.includePats ++ rest }
        else if cmd = "exclude" then { cmds with excludePats := cmds.excludePats ++ rest }
        else if cmd = "recursive-include" then
          { cmds with recursiveIncludePats := cmds.recursiveIncludePats ++ rest }
        else if cmd = "recursive-exclude" then
          { cmds with recursiveExcludePats := cmds.recursiveExcludePats ++ rest }
        else if cmd = "global-include" then
          { cmds with globalIncludePats := cmds.globalIncludePats ++ rest }
        else if cmd = "global-exclude" then
          { cmds with globalExcludePats := cmds.globalExcludePats ++ rest }
        else cmds

def parseManifest (lines : List String) : ManifestCommands :=
  lines.foldl parseManifestLine emptyCommands

/-- Split a glob pattern on `/` into components. -/
def splitSlash (pat : String) : List String :=
  (splitOnChar '/' pat.data).map String.mk

/-- Component-wise glob matching (`Path.glob`): `**` matches any run of
components, every other component matches by `fnmatch`.  Fueled; each step
consumes a pattern component or a path component. -/
def globMatchAux : Nat → List String → List String → Bool
  | 0, _, _ => false
  | _ + 1, [], path => path.isEmpty
  | fuel + 1, "**" :: ps, path =>
    globMatchAux fuel ps path ||
      (match path with
       | [] => false
       | _ :: pt => globMatchAux fuel ("**" :: ps) pt)
  | fuel + 1, p :: ps, path =>
    match path with
    | [] => false
    | c :: ct => fnmatch c p && globMatchAux fuel ps ct

def globMatch (pat : List String) (path : List String) : Bool :=
  globMatchAux (pat.length + path.length + 1) pat path

/-- The final path component (`Path.name`). -/
def pathName (f : List String) : String :=
  f.getLastD ""

/-- The nonempty proper prefixes of a file path: the subdirectories it
witnesses. -/
def properPrefixes (f : List String) : List (List String) :=
  (List.range f.length).filterMap fun k => if k = 0 then Option.none else Option.some (f.take k)

/-- All (non-empty) subdirectories of the package directory. -/
def dirsOf (tree : List (List String)) : List (List String) :=
  (tree.flatMap properPrefixes).dedup

/-- The files strictly below a directory (`dir_path.rglob("*")`, files
only). -/
def filesUnder (tree : List (List String)) (d : List String) : List (List String) :=
  tree.filter fun f => d.isPrefixOf f && f ≠ d

/-- The `recursive-include` / `recursive-exclude` pattern list is consumed
two at a time (directory pattern, file-pattern token), stopping at an odd
leftover — the `while i + 1 < len` loop. -/
def pairsOf : List String → List (String × String)
  | d :: p :: rest => (d, p) :: pairsOf rest
  | _ => []

/-- Files matched by one `recursive-*` (dir-pattern, patterns-token)
pair. -/
def recursiveMatches (tree : List (List String)) (pair : String × String) :
    List (List String) :=
  let pats := pyWords pair.2
  ((dirsOf tree).filter fun d => globMatch (splitSlash pair.1) d).flatMap fun d =>
    (filesUnder tree d).filter fun f => pats.any fun p => fnmatch (pathName f) p

/-- The `included_files` set of `_add_files_from_manifest`: implicit
`*.py` files, `include`, `recursive-include` and `global-include`
matches. -/
def includedFiles (tree : List (List String)) (cmds : ManifestCommands) :
    List (List String) :=
  (tree.filter fun f => fnmatch (pathName f) "*.py")
    ++ (cmds.includePats.flatMap fun pat =>
          tree.filter fun f => globMatch (splitSlash pat) f)
    ++ ((pairsOf cmds.recursiveIncludePats).flatMap (recursiveMatches tree))
    ++ (cmds.globalIncludePats.flatMap fun pat =>
          tree.filter fun f => fnmatch (pathName f) ((splitSlash pat).getLastD pat))

/-- The `excluded_files` set: `exclude`, `recursive-exclude` and
`global-exclude` matches. -/
def excludedFiles (tree : List (List String)) (cmds : ManifestCommands) :
    List (List String) :=
  (cmds.excludePats.flatMap fun pat =>
      tree.filter fun f => globMatch (splitSlash pat) f)
    ++ ((pairsOf cmds.recursiveExcludePats).flatMap (recursiveMatches tree))
    ++ (cmds.globalExcludePats.flatMap fun pat =>
          tree.filter fun f => fnmatch (pathName f) pat)

/-- The files written to the wheel: `included_files - excluded_files`
(set difference; each file at most once). -/
def writtenFiles (tree : List (List String)) (cmds : ManifestCommands) :
    List (List String) :=
  (includedFiles tree cmds).dedup.filter fun f => f ∉ excludedFiles tree cmds

/-! ## `stubs.StubGenerator.parse_stubs`

Translation of `stubs.py` lines 19-58.  The stub directory is
`none` when it does not exist, otherwise the list of its entries as
`(file name, file contents)`; `jsonParse` is `json.loads` (a parse or
read failure — `JSONDecodeError`/`OSError` — is a `none` result, which the
source skips with a warning).  The generator's `entries` list is threaded
explicitly; the returned `Nat` is the count the method returns. -/

def parseStubsFallback {α : Type} (jsonParse : String → Option α)
    (compilerOutput : String) (entries : List α) : List α × Nat :=
  (pySplitlines compilerOutput).foldl
    (fun acc rawLine =>
      let line := stripChars rawLine
      if line.take 10 = "NUWA_STUB:".data then
        let jsonStr := String.mk (stripChars (line.drop 10))
        match jsonParse jsonStr with
        | Option.some data => (acc.1 ++ [data], acc.2 + 1)
        | Option.none => acc
      else acc)
    (entries, 0)

def parseStubs {α : Type} (jsonParse : String → Option α)
    (stubDir : Option (List (String × String))) (compilerOutput : String)
    (entries : List α) : List α × Nat :=
  -- Try file-based approach first
  match stubDir with
  | Option.some dirEntries =>
    let jsonFiles := dirEntries.filter fun f => fnmatch f.1 "*.json"
    if jsonFiles ≠ [] then
      jsonFiles.foldl
        (fun acc f =>
          match jsonParse f.2 with
          | Option.some data => (acc.1 ++ [data], acc.2 + 1)
          | Option.none => acc)
        (entries, 0)
    else
      -- Fall back to stdout parsing
      parseStubsFallback jsonParse compilerOutput entries
  | Option.none => parseStubsFallback jsonParse compilerOutput entries

/-! ## `config.merge_cli_args`

Translation of `config.py` lines 160-198.  Configurations and CLI-argument
maps are Python dicts: association lists from string keys to Python
values, with Python truthiness.  `dict.get` of a missing key is `None`. -/

inductive PyVal where
  | none : PyVal
  | bool : Bool → PyVal
  | int : Int → PyVal
  | str : String → PyVal
  | list : List PyVal → PyVal

/-- Python truthiness. -/
def truthy : PyVal → Bool
  | PyVal.none => false
  | PyVal.bool b => b
  | PyVal.int n => n ≠ 0
  | PyVal.str s => s ≠ ""
  | PyVal.list l => !l.isEmpty

abbrev PyDict : Type := List (String × PyVal)

/-- Python `d.get(k)` (missing key → `None`): the value of the first entry with
the given key. -/
def dictGet (d : PyDict) (k : String) : PyVal :=
  match d with
  | [] => PyVal.none
  | kv :: t => if kv.1 = k then kv.2 else dictGet t k

/-- Python `d.get(k, default)`. -/
def dictGetD (d : PyDict) (k : String) (dflt : PyVal) : PyVal :=
  match d with
  | [] => dflt
  | kv :: t => if kv.1 = k then kv.2 else dictGetD t k dflt

/-- Python `k in d`. -/
def dictHas (d : PyDict) (k : String) : Bool :=
  List.any d (fun kv => kv.1 == k)

/-- Python `d[k] = v`. -/
def dictSet (d : PyDict) (k : String) (v : PyVal) : PyDict :=
  if dictHas d k then
    d.map fun kv => if kv.1 = k then (k, v) else kv
  else
    d ++ [(k, v)]

def pyIsNone : PyVal → Bool
  | PyVal.none => true
  | _ => false

/-- Python `+` as used on the two flag lists; the source only ever adds
two lists (anything else raises `TypeError` and is outside the verified
behaviour). -/
def pyAddLists : PyVal → PyVal → PyVal
  | PyVal.list a, PyVal.list b => PyVal.list (a ++ b)
  | _, _ => PyVal.none

/-- The six direct-override keys of `cli_to_config_map` (each CLI key maps
to the identically named config key), in insertion order. -/
def directOverrideKeys : List String :=
  ["module_name", "nim_source", "entry_point",
   "allow_manifest_binaries", "windows_static_linking", "bundle_adjacent_dlls"]

/-- The `for cli_key, config_key in cli_to_config_map.items()` loop. -/
def applyDirectOverrides (cliArgs : PyDict) (result : PyDict) : PyDict :=
  directOverrideKeys.foldl
    (fun r k => if truthy (dictGet cliArgs k) then dictSet r k (dictGet cliArgs k) else r)
    result

/-- The `output_location` / `output_dir` special case (lines 189-192). -/
def applyOutputLocation (cliArgs : PyDict) (result : PyDict) : PyDict :=
  if dictHas cliArgs "output_location" && !(pyIsNone (dictGet cliArgs "output_location")) then
    dictSet result "output_location" (dictGet cliArgs "output_location")
  else if dictHas cliArgs "output_dir" && !(pyIsNone (dictGet cliArgs "output_dir")) then
    dictSet result "output_location" (dictGet cliArgs "output_dir")
  else result

/-- The `nim_flags` extension (lines 195-196): extend, don't replace. -/
def applyNimFlags (cliArgs : PyDict) (result : PyDict) : PyDict :=
  if truthy (dictGet cliArgs "nim_flags") then
    dictSet result "nim_flags"
      (pyAddLists (dictGetD result "nim_flags" (PyVal.list [])) (dictGet cliArgs "nim_flags"))
  else result

def mergeCliArgs (config : PyDict) (cliArgs : PyDict) : PyDict :=
  applyNimFlags cliArgs (applyOutputLocation cliArgs (applyDirectOverrides cliArgs config))

/-! ## Helper lemmas -/

/-- The function `findSome?` returns the image of the first element on which `f`
succeeds. -/
lemma findSome_first {α β : Type} (f : α → Option β) :
    ∀ (L : List α) (i : Nat) (x : α) (e : β),
      L[i]? = Option.some x → f x = Option.some e →
      (∀ j, j < i → ∀ y, L[j]? = Option.some y → f y = Option.none) →
      L.findSome? f = Option.some e := by
  intro L
  induction L with
  | nil => intro i x e hx; simp at hx
  | cons a t ih =>
    intro i x e hx hfx hnone
    cases i with
    | zero =>
      simp at hx
      subst hx
      simp [List.findSome?_cons, hfx]
    | succ k =>
      have ha : f a = Option.none := hnone 0 (Nat.succ_pos k) a (by simp)
      simp at hx
      have := ih k x e hx hfx (fun j hj y hy => hnone (j + 1) (Nat.succ_lt_succ hj) y (by simpa using hy))
      simp [List.findSome?_cons, ha, this]

/-- The length of a Python slice never exceeds the length of the list. -/
lemma pySlice_length_le {α : Type} (l : List α) (a b : Int) :
    (pySlice l a b).length ≤ l.length := by
  unfold pySlice
  simp only [List.length_drop, List.length_take]
  omega

/-! ## Claim theorems -/

/-- Claim C1 (code bug): `_add_compiled_extension` in `pep517_hooks.py`
ignores the `bundle_adjacent_dlls` configuration entirely — it takes no
such parameter and unconditionally bundles every adjacent DLL whenever
the artifact has the Windows `.pyd` extension, so the toggle cannot
exclude the DLL; a non-Windows extension indeed never triggers the DLL
scan. -/
theorem addCompiledExtension_always_bundles_dlls :
    addCompiledExtension ["helper.dll", "my_pkg_lib.pyd"] "my_pkg_lib.pyd"
        "my_pkg" "my_pkg_lib" ".pyd"
      = ["my_pkg/my_pkg_lib.pyd", "my_pkg/helper.dll"]
    ∧ ∀ (parentEntries : List String) (nameNorm libName : String),
        addCompiledExtension parentEntries "m.so" nameNorm libName ".so"
          = [nameNorm ++ "/" ++ libName ++ ".so"] := by
  constructor
  · decide
  · intro pe nn ln
    have hs : pathSuffix "m.so" = ".so" := by decide
    simp [addCompiledExtension, hs]

/-- Claim C2: the compiler command is assembled in a fixed order — the
compiler invocation (`nim c`), the library-mode flag, the output-path
flag, the source-search-path flag, the optional local-dependency-path
flag (preferring the newer `pkgs2` subdirectory, falling back to `pkgs`,
omitted when neither exists), the release-optimization flag exactly when
the build type is `"release"`, the extra flags in their original order,
and the entry point last. -/
theorem buildNimCommand_order (e o bt : String) (fl : List String) (d : String)
    (np : Option String) (ex : String → Bool) :
    buildNimCommand e o bt fl d np ex =
      ["nim", "c", NIM_APP_LIB_FLAG, "--out:" ++ o, "--path:" ++ d]
        ++ (match np with
            | Option.none => []
            | Option.some p =>
              if ex (p ++ "/pkgs2") then ["--nimblePath:" ++ (p ++ "/pkgs2")]
              else if ex (p ++ "/pkgs") then ["--nimblePath:" ++ (p ++ "/pkgs")]
              else [])
        ++ (if bt = "release" then ["-d:release"] else [])
        ++ fl ++ [e] := by
  unfold buildNimCommand
  cases np with
  | none =>
    by_cases hb : bt = "release" <;> by_cases hf : fl = [] <;> simp [hb, hf]
  | some p =>
    by_cases h2 : ex (p ++ "/pkgs2") <;> by_cases h1 : ex (p ++ "/pkgs") <;>
      by_cases hb : bt = "release" <;> by_cases hf : fl = [] <;>
      simp [h2, h1, hb, hf]

/-- Claim C3 counterexample: with static linking disabled, the resolved
flag list is not necessarily free of the static-link flag — a configured
flag list that already contains `--passL:-static` keeps it on any
platform. -/
theorem static_flag_disabled_counterexample :
    "--passL:-static" ∈ nuwaConfigNimFlags "linux" ["--passL:-static"] [] false := by
  decide

/-- Claim C3 (amended): on `win32` with static linking enabled and a
configured flag list containing neither `--passL:-static` nor `--cc:vcc`,
the resolved flag list contains the static-link flag exactly once; with
static linking disabled nothing is injected — the resolved list is
exactly the configured flags, so the static flag is absent whenever the
configured flags do not contain it, regardless of platform. -/
theorem static_flag_injection :
    (∀ base prof : List String,
        "--passL:-static" ∉ base ++ prof → "--cc:vcc" ∉ base ++ prof →
        (nuwaConfigNimFlags "win32" base prof true).count "--passL:-static" = 1)
    ∧ (∀ (platform : String) (base prof : List String),
        nuwaConfigNimFlags platform base prof false = base ++ prof) := by
  constructor
  · intro base prof h1 h2
    have hc1 : (base ++ prof).contains "--passL:-static" = false := by
      simpa using h1
    have hc2 : (base ++ prof).contains "--cc:vcc" = false := by
      simpa using h2
    simp only [nuwaConfigNimFlags, hc1, hc2]
    have hb : List.count "--passL:-static" base = 0 :=
      List.count_eq_zero.mpr fun hmem => h1 (List.mem_append.mpr (Or.inl hmem))
    have hp : List.count "--passL:-static" prof = 0 :=
      List.count_eq_zero.mpr fun hmem => h1 (List.mem_append.mpr (Or.inr hmem))
    simp [List.count_append, hb, hp]
  · intro platform base prof
    simp [nuwaConfigNimFlags]

/-- Witness for C3: a concrete enabled `win32` configuration gets the
static flag exactly once, and a concrete disabled configuration keeps its
flags unchanged. -/
theorem static_flag_injection_witness :
    (nuwaConfigNimFlags "win32" ["-a"] [] true).count "--passL:-static" = 1
    ∧ nuwaConfigNimFlags "linux" ["-a"] [] false = ["-a"] :=
  ⟨static_flag_injection.1 ["-a"] [] (by decide) (by decide),
   static_flag_injection.2 "linux" ["-a"] []⟩

/-- Claim C6: when no line of the stderr parses as a diagnostic, the
error formatter returns the raw stderr unmodified. -/
theorem format_error_fallback (fs : String → Option (List String)) (stderr : String)
    (wd : Option String) (h : parseNimError stderr = Option.none) :
    formatCompilationError fs stderr wd = stderr := by
  unfold formatCompilationError
  rw [h]

/-- Witness for C6: a concrete non-diagnostic stderr comes back
verbatim. -/
theorem format_error_fallback_witness :
    formatCompilationError (fun _ => Option.none) "not a diagnostic" Option.none
      = "not a diagnostic" :=
  format_error_fallback (fun _ => Option.none) "not a diagnostic" Option.none (by decide)

/-- Claim C5: the diagnostic parser yields the structured error for
`"foo.nim(12,10) Error: boom"`, tolerates whitespace around the comma and
before the closing parenthesis, yields no match on a non-diagnostic line,
and on multi-line stderr the first matching line (scanning top to bottom)
determines the result. -/
theorem parseNimError_spec :
    parseNimError "foo.nim(12,10) Error: boom"
        = Option.some ⟨"foo.nim", 12, 10, "Error", "boom"⟩
    ∧ parseNimError "foo.nim(12 , 10 ) Error: boom"
        = Option.some ⟨"foo.nim", 12, 10, "Error", "boom"⟩
    ∧ parseNimError "not a diagnostic" = Option.none
    ∧ ∀ (stderr : String) (i : Nat) (l : List Char) (e : NimError),
        (pyLines stderr)[i]? = Option.some l → parseLine l = Option.some e →
        (∀ j, j < i → ∀ l', (pyLines stderr)[j]? = Option.some l' →
          parseLine l' = Option.none) →
        parseNimError stderr = Option.some e := by
  refine ⟨by decide, by decide, by decide, ?_⟩
  intro stderr i l e hl hp hnone
  exact findSome_first parseLine (pyLines stderr) i l e hl hp hnone

/-- Witness for C5: on a three-line stderr whose first line is junk, the
second (first matching) line wins over the third. -/
theorem parseNimError_spec_witness :
    parseNimError "junk\nfoo.nim(3,4) Warning: w\nfoo.nim(5,6) Error: e"
      = Option.some ⟨"foo.nim", 3, 4, "Warning", "w"⟩ := by
  refine parseNimError_spec.2.2.2 _ 1 ("foo.nim(3,4) Warning: w".data) _
    (by decide) (by decide) ?_
  intro j hj l' h
  have hj0 : j = 0 := by omega
  subst hj0
  have h0 : (pyLines "junk\nfoo.nim(3,4) Warning: w\nfoo.nim(5,6) Error: e")[0]?
      = Option.some "junk".data := by decide
  rw [h] at h0
  have hl : l' = "junk".data := Option.some.inj h0
  subst hl
  decide

/-- Claim C7: a file matched by an exclusion rule is never written to the
archive, whatever inclusion rules also match it and in whatever order the
rules appear; in particular, for the `recursive-include data *.txt` /
`recursive-exclude data *.txt` pair the matched file is excluded in
either declaration order. -/
theorem manifest_exclusion_wins :
    (∀ (tree : List (List String)) (lines : List String) (f : List String),
        f ∈ excludedFiles tree (parseManifest lines) →
        f ∉ writtenFiles tree (parseManifest lines))
    ∧ writtenFiles [["__init__.py"], ["data", "a.txt"]]
        (parseManifest ["recursive-include data *.txt", "recursive-exclude data *.txt"])
        = [["__init__.py"]]
    ∧ writtenFiles [["__init__.py"], ["data", "a.txt"]]
        (parseManifest ["recursive-exclude data *.txt", "recursive-include data *.txt"])
        = [["__init__.py"]] := by
  refine ⟨?_, by decide, by decide⟩
  intro tree lines f hex hw
  simp only [writtenFiles, List.mem_filter] at hw
  exact absurd hex (by simpa using hw.2)

/-- Witness for C7: the concrete `data/a.txt` file matched by both the
recursive include and the recursive exclude is not written. -/
theorem manifest_exclusion_wins_witness :
    ["data", "a.txt"] ∉ writtenFiles [["__init__.py"], ["data", "a.txt"]]
      (parseManifest ["recursive-include data *.txt", "recursive-exclude data *.txt"]) :=
  manifest_exclusion_wins.1 [["__init__.py"], ["data", "a.txt"]]
    ["recursive-include data *.txt", "recursive-exclude data *.txt"]
    ["data", "a.txt"] (by decide)

/-- The per-file accumulation loop of `parse_stubs` collects exactly the
successfully parsed entries, in order. -/
lemma stub_fold {α : Type} (p : String → Option α) (l : List (String × String))
    (es : List α) (n : Nat) :
    l.foldl
        (fun acc f =>
          match p f.2 with
          | Option.some data => (acc.1 ++ [data], acc.2 + 1)
          | Option.none => acc)
        (es, n)
      = (es ++ l.filterMap (fun f => p f.2),
         n + (l.filterMap (fun f => p f.2)).length) := by
  induction l generalizing es n with
  | nil => simp
  | cons hd t ih =>
    simp only [List.foldl_cons, List.filterMap_cons]
    cases hph : p hd.2 with
    | none => simpa [hph] using ih es n
    | some d =>
      simp only [hph]
      rw [ih (es ++ [d]) (n + 1)]
      simp [Nat.add_assoc, Nat.add_comm 1]

/-- Claim C8: when the stub directory exists and holds at least one JSON
file, `parse_stubs` collects exactly the entries parsed from those files
— the result is independent of the compiler stdout (the marker-line
fallback is never consulted) and the two sources are never merged. -/
theorem parseStubs_dir_short_circuits {α : Type} (p : String → Option α)
    (files : List (String × String)) (es : List α)
    (hjson : files.filter (fun f => fnmatch f.1 "*.json") ≠ []) :
    (∀ out out', parseStubs p (Option.some files) out es
        = parseStubs p (Option.some files) out' es)
    ∧ ∀ out, parseStubs p (Option.some files) out es
        = (es ++ (files.filter (fun f => fnmatch f.1 "*.json")).filterMap (fun f => p f.2),
           ((files.filter (fun f => fnmatch f.1 "*.json")).filterMap (fun f => p f.2)).length) := by
  have key : ∀ out, parseStubs p (Option.some files) out es
      = (es ++ (files.filter (fun f => fnmatch f.1 "*.json")).filterMap (fun f => p f.2),
         ((files.filter (fun f => fnmatch f.1 "*.json")).filterMap (fun f => p f.2)).length) := by
    intro out
    unfold parseStubs
    dsimp only
    rw [if_pos hjson]
    simpa using stub_fold p (files.filter (fun f => fnmatch f.1 "*.json")) es 0
  exact ⟨fun out out' => (key out).trans (key out').symm, key⟩

/-- Witness for C8: a one-file stub directory wins over a stdout that the
fallback would happily parse. -/
theorem parseStubs_dir_short_circuits_witness :
    parseStubs Option.some (Option.some [("a.json", "A")]) "NUWA_STUB: B" ([] : List String)
      = (["A"], 1) := by
  rw [(parseStubs_dir_short_circuits Option.some [("a.json", "A")] [] (by decide)).2
        "NUWA_STUB: B"]
  decide

/-- Claim C10: context extraction is total — an unreadable or absent file
yields `([], 0)`; on a readable file the context window is clamped to the
file's bounds; and when no context is available the error formatter still
produces the formatted message, simply omitting the context section. -/
theorem getErrorContext_safety :
    (∀ (fs : String → Option (List String)) (path : String) (n c : Int),
        fs path = Option.none → getErrorContext fs path n c = ([], 0))
    ∧ (∀ (fs : String → Option (List String)) (path : String) (n : Int)
          (ls : List String),
        fs path = Option.some ls →
        ((getErrorContext fs path n 2).1).length ≤ ls.length)
    ∧ (∀ (fs : String → Option (List String)) (stderr : String)
          (wd : Option String) (err : NimError),
        parseNimError stderr = Option.some err →
        (getErrorContext fs (resolveErrorPath wd err.file) (err.line : Int) 2).1 = [] →
        formatCompilationError fs stderr wd =
          String.intercalate "\n"
            ["\n" ++ (if err.level = "Error" then "❌" else "⚠️") ++ " " ++ err.level
               ++ " in " ++ resolveErrorPath wd err.file ++ ":" ++ toString err.line,
             "", "   " ++ err.message, "",
             "--- Full compiler output ---", stderr]) := by
  refine ⟨?_, ?_, ?_⟩
  · intro fs path n c h
    unfold getErrorContext
    rw [h]
  · intro fs path n ls h
    unfold getErrorContext
    rw [h]
    simpa using pySlice_length_le ls _ _
  · intro fs stderr wd err h1 h2
    unfold formatCompilationError
    rw [h1]
    simp only [h2, ite_not]
    simp

/-- Witness for C10: the three parts applied at concrete inputs — an
unreadable file, a two-line readable file, and a formatted error with no
available context. -/
theorem getErrorContext_safety_witness :
    getErrorContext (fun _ => Option.none) "f.nim" 5 2 = ([], 0)
    ∧ ((getErrorContext (fun _ => Option.some ["a\n", "b\n"]) "f.nim" 1 2).1).length ≤ 2
    ∧ formatCompilationError (fun _ => Option.none) "foo.nim(12,10) Error: boom" Option.none
        = "\n❌ Error in foo.nim:12\n\n   boom\n\n--- Full compiler output ---\nfoo.nim(12,10) Error: boom" := by
  refine ⟨getErrorContext_safety.1 (fun _ => Option.none) "f.nim" 5 2 rfl, ?_, ?_⟩
  · exact getErrorContext_safety.2.1 (fun _ => Option.some ["a\n", "b\n"]) "f.nim" 1
      ["a\n", "b\n"] rfl
  · exact (getErrorContext_safety.2.2 (fun _ => Option.none)
      "foo.nim(12,10) Error: boom" Option.none ⟨"foo.nim", 12, 10, "Error", "boom"⟩
      (by decide) (by decide)).trans (by decide)

/-! ### Dictionary lemmas for `merge_cli_args` -/

lemma dictGet_map_set_eq (d : PyDict) (k : String) (v : PyVal) :
    dictGet (d.map fun kv => if kv.1 = k then (k, v) else kv) k
      = if dictHas d k then v else PyVal.none := by
  induction d with
  | nil => simp [dictGet, dictHas]
  | cons hd t ih =>
    by_cases h1 : hd.1 = k
    · simp [dictGet, dictHas, h1]
    · have hcond : dictHas (hd :: t) k = dictHas t k := by
        unfold dictHas
        rw [List.any_cons, beq_eq_false_iff_ne.mpr h1, Bool.false_or]
      rw [List.map_cons, if_neg h1, hcond]
      simp only [dictGet, if_neg h1]
      exact ih

lemma dictGet_append_single_eq (d : PyDict) (k : String) (v : PyVal)
    (hh : dictHas d k = false) :
    dictGet (d ++ [(k, v)]) k = v := by
  induction d with
  | nil => simp [dictGet]
  | cons hd t ih =>
    simp only [dictHas, List.any_cons, Bool.or_eq_false_iff] at hh
    simp [dictGet, beq_eq_false_iff_ne.mp hh.1, ih (by simpa [dictHas] using hh.2)]

lemma dictGet_map_set_ne (d : PyDict) (k k' : String) (v : PyVal) (h : k ≠ k') :
    dictGet (d.map fun kv => if kv.1 = k then (k, v) else kv) k' = dictGet d k' := by
  induction d with
  | nil => rfl
  | cons hd t ih =>
    by_cases h1 : hd.1 = k
    · have h2 : ¬hd.1 = k' := fun hx => h ((h1.symm.trans hx))
      simp [dictGet, h1, h2, h, ih]
    · by_cases h2 : hd.1 = k'
      · simp [dictGet, h1, h2, Ne.symm h, ih]
      · simp [dictGet, h1, h2, ih]

lemma dictGet_append_single_ne (d : PyDict) (k k' : String) (v : PyVal)
    (h : k ≠ k') :
    dictGet (d ++ [(k, v)]) k' = dictGet d k' := by
  induction d with
  | nil => simp [dictGet, h]
  | cons hd t ih =>
    by_cases h2 : hd.1 = k'
    · simp [dictGet, h2]
    · simp [dictGet, h2, ih]

lemma dictGet_dictSet_eq (d : PyDict) (k : String) (v : PyVal) :
    dictGet (dictSet d k v) k = v := by
  unfold dictSet
  by_cases hh : dictHas d k
  · rw [if_pos hh, dictGet_map_set_eq, if_pos hh]
  · rw [if_neg hh, dictGet_append_single_eq _ _ _ (by simpa using hh)]

lemma dictGet_dictSet_ne (d : PyDict) (k k' : String) (v : PyVal) (h : k ≠ k') :
    dictGet (dictSet d k v) k' = dictGet d k' := by
  unfold dictSet
  by_cases hh : dictHas d k
  · rw [if_pos hh, dictGet_map_set_ne _ _ _ _ h]
  · rw [if_neg hh, dictGet_append_single_ne _ _ _ _ h]

/-- The direct-override loop never changes a key whose CLI value is
falsy. -/
lemma foldl_direct_get_falsy (cli : PyDict) (keys : List String) (r : PyDict)
    (k : String) (hf : truthy (dictGet cli k) = false) :
    dictGet
        (keys.foldl
          (fun r' k' =>
            if truthy (dictGet cli k') then dictSet r' k' (dictGet cli k') else r')
          r) k
      = dictGet r k := by
  induction keys generalizing r with
  | nil => rfl
  | cons a t ih =>
    simp only [List.foldl_cons]
    rw [ih]
    by_cases ht : truthy (dictGet cli a)
    · have hne : a ≠ k := fun he => by rw [he] at ht; rw [hf] at ht; exact Bool.noConfusion ht
      rw [if_pos ht, dictGet_dictSet_ne _ _ _ _ hne]
    · rw [if_neg ht]

/-- The direct-override loop never touches a key outside its key list. -/
lemma foldl_direct_get_notmem (cli : PyDict) (keys : List String) (r : PyDict)
    (k : String) (hk : k ∉ keys) :
    dictGet
        (keys.foldl
          (fun r' k' =>
            if truthy (dictGet cli k') then dictSet r' k' (dictGet cli k') else r')
          r) k
      = dictGet r k := by
  induction keys generalizing r with
  | nil => rfl
  | cons a t ih =>
    simp only [List.mem_cons, not_or] at hk
    simp only [List.foldl_cons]
    rw [ih _ hk.2]
    by_cases ht : truthy (dictGet cli a)
    · rw [if_pos ht, dictGet_dictSet_ne _ _ _ _ (Ne.symm hk.1)]
    · rw [if_neg ht]

lemma applyOutputLocation_get_ne (cli r : PyDict) (k : String)
    (h : k ≠ "output_location") :
    dictGet (applyOutputLocation cli r) k = dictGet r k := by
  unfold applyOutputLocation
  split
  · exact dictGet_dictSet_ne _ _ _ _ (Ne.symm h)
  · split
    · exact dictGet_dictSet_ne _ _ _ _ (Ne.symm h)
    · rfl

lemma applyNimFlags_get_ne (cli r : PyDict) (k : String) (h : k ≠ "nim_flags") :
    dictGet (applyNimFlags cli r) k = dictGet r k := by
  unfold applyNimFlags
  split
  · exact dictGet_dictSet_ne _ _ _ _ (Ne.symm h)
  · rfl

lemma dictGetD_of_dictGet_list (d : PyDict) (k : String) (dflt : PyVal)
    (A : List PyVal) (h : dictGet d k = PyVal.list A) :
    dictGetD d k dflt = PyVal.list A := by
  induction d with
  | nil => exact absurd h (by simp [dictGet])
  | cons hd t ih =>
    by_cases h1 : hd.1 = k
    · simpa [dictGet, dictGetD, h1] using h
    · simp only [dictGet, if_neg h1] at h
      simpa [dictGetD, h1] using ih h

/-- Claim C4: CLI flag overrides extend the base flag list and never
replace it — the merged `nim_flags` is the concatenation of the base list
and the override list. -/
theorem merge_nim_flags_extends (config cli : PyDict) (A B : List PyVal)
    (hc : dictGet config "nim_flags" = PyVal.list A)
    (ha : dictGet cli "nim_flags" = PyVal.list B) :
    dictGet (mergeCliArgs config cli) "nim_flags" = PyVal.list (A ++ B) := by
  have h1 : dictGet (applyOutputLocation cli (applyDirectOverrides cli config))
      "nim_flags" = PyVal.list A := by
    rw [applyOutputLocation_get_ne _ _ _ (by decide)]
    unfold applyDirectOverrides
    rw [foldl_direct_get_notmem _ _ _ _ (by decide)]
    exact hc
  unfold mergeCliArgs applyNimFlags
  rw [ha]
  cases B with
  | nil =>
    simp only [truthy, List.isEmpty_nil, Bool.not_true, Bool.false_eq_true, if_false]
    rw [h1, List.append_nil]
  | cons b bs =>
    simp only [truthy, List.isEmpty_cons, Bool.not_false, if_true]
    rw [dictGet_dictSet_eq, dictGetD_of_dictGet_list _ _ _ _ h1]
    rfl

/-- Witness for C4: base flags `["a"]` and override flags `["b"]` merge
to `["a", "b"]`. -/
theorem merge_nim_flags_extends_witness :
    dictGet
        (mergeCliArgs [("nim_flags", PyVal.list [PyVal.str "a"])]
          [("nim_flags", PyVal.list [PyVal.str "b"])])
        "nim_flags"
      = PyVal.list [PyVal.str "a", PyVal.str "b"] :=
  merge_nim_flags_extends [("nim_flags", PyVal.list [PyVal.str "a"])]
    [("nim_flags", PyVal.list [PyVal.str "b"])] [PyVal.str "a"] [PyVal.str "b"] rfl rfl

/-- Claim C9: a direct-override key whose CLI value is falsy (`False`,
`""`, `0`, `None`, or absent) leaves the base configuration's value for
that key unchanged — in particular an explicit `False` cannot turn off a
base `True`. -/
theorem merge_falsy_override_noop (config cli : PyDict) (k : String)
    (hk : k ∈ directOverrideKeys) (hf : truthy (dictGet cli k) = false) :
    dictGet (mergeCliArgs config cli) k = dictGet config k := by
  have hol : k ≠ "output_location" := by
    intro he; subst he; revert hk; decide
  have hnf : k ≠ "nim_flags" := by
    intro he; subst he; revert hk; decide
  unfold mergeCliArgs
  rw [applyNimFlags_get_ne _ _ _ hnf, applyOutputLocation_get_ne _ _ _ hol]
  unfold applyDirectOverrides
  exact foldl_direct_get_falsy _ _ _ _ hf

/-- Witness for C9: an explicit `windows_static_linking=False` override
does not turn off the base `True`. -/
theorem merge_falsy_override_noop_witness :
    dictGet
        (mergeCliArgs [("windows_static_linking", PyVal.bool true)]
          [("windows_static_linking", PyVal.bool false)])
        "windows_static_linking"
      = PyVal.bool true :=
  merge_falsy_override_noop [("windows_static_linking", PyVal.bool true)]
    [("windows_static_linking", PyVal.bool false)] "windows_static_linking"
    (by decide) rfl

end NuwaBuild
